import Mathlib

/-!
# Verification of `parse_commit.py` (Safe Pilot Committing parser)

Shallow embedding of the single source file
`skills/safe-pilot-committing/parse_commit.py` and proofs of the spec's
claims about it.

Strings are modelled as Lean `String` (for the formatting functions) and
as `List Char` (for the regex-extraction step, where positional reasoning
is needed).  The YAML decoder (`yaml.safe_load`, a third-party library) is
abstracted as a parameter `decode : List Char → Option Recommendation`;
the one library fact a claim depends on (PyYAML returns `None` for empty
input) is carried as an explicit hypothesis.
-/

/-- Python `str.isspace` on the characters relevant here: the ASCII
whitespace characters plus the Unicode whitespace code points Python
strips. -/
def pyIsSpace (c : Char) : Bool :=
  c.toNat ∈ [9, 10, 11, 12, 13, 28, 29, 30, 31, 32,
             0x85, 0xa0, 0x1680, 0x2028, 0x2029, 0x202f, 0x205f, 0x3000] ||
  (0x2000 ≤ c.toNat && c.toNat ≤ 0x200a)

/-- Python `str.strip()` on a list of characters: drop whitespace from
both ends. -/
def pyStripList (l : List Char) : List Char :=
  ((l.dropWhile pyIsSpace).reverse.dropWhile pyIsSpace).reverse

/-- Python `str.strip()` on a `String`. -/
def pyStrip (s : String) : String :=
  String.mk (pyStripList s.data)

/-- Python `sep.join(parts)`. -/
def pyJoin (sep : String) : List String → String
  | [] => ""
  | [s] => s
  | s :: t :: rest => s ++ sep ++ pyJoin sep (t :: rest)

/-- Python `s.upper()` (character-wise upper-casing). -/
def pyUpper (s : String) : String :=
  String.mk (s.data.map Char.toUpper)

/-- Python `message.replace(chr(34), chr(92) ++ chr(34))` from line 135:
each double-quote character is replaced by a backslash and a quote. -/
def escapeQuotes (s : String) : String :=
  String.mk (s.data.flatMap (fun ch => if ch = '"' then ['\\', '"'] else [ch]))

/-- A `Commit` mapping of the recommendation block (data model of §3).
Optional YAML keys are `Option`s; `id` is kept as the display string. -/
structure Commit where
  id : String
  type : String
  scope : Option String
  subject : String
  body : Option String
  files : List String
  breaking : Bool
  closes : Option String
deriving Repr, DecidableEq

/-- The top-level `Recommendation` record (data model of §3). -/
structure Recommendation where
  status : String
  security_scan : String
  issues_found : Int
  commits_proposed : Int
  commits : List Commit
deriving Repr, DecidableEq

/-- Python truthiness of `commit.get(key)` for an optional string field:
truthy iff present and non-empty. -/
def optTruthy (o : Option String) : Bool :=
  match o with
  | none => false
  | some s => s ≠ ""

/-- Line 57: the scope part of the subject line, a parenthesised scope
when the scope field is truthy, otherwise empty. -/
def scopePart (c : Commit) : String :=
  if optTruthy c.scope then "(" ++ c.scope.getD "" ++ ")" else ""

/-- Line 58: the subject line `f"{type}{scope}: {subject}"`. -/
def subjectLine (c : Commit) : String :=
  c.type ++ scopePart c ++ ": " ++ c.subject

/-- Lines 46-73: `format_commit_message`.  Builds the parts list exactly as
the Python code does and joins with a newline. -/
def format_commit_message (c : Commit) : String :=
  let parts : List String := [subjectLine c]
  let parts : List String :=
    if optTruthy c.body then parts ++ ["", pyStrip (c.body.getD "")] else parts
  let parts : List String :=
    if optTruthy c.closes then
      (if optTruthy c.body then parts else parts ++ [""]) ++ ["", c.closes.getD ""]
    else parts
  pyJoin "\n" parts

/-- Lines 112-139: `generate_git_commands`.  Returns `[]` unless the status
is the string `safe`; otherwise one `git add`, one `git commit` and one
empty separator string per commit, accumulated in order. -/
def generate_git_commands (r : Recommendation) : List String :=
  if r.status ≠ "safe" then []
  else
    r.commits.foldl
      (fun commands c =>
        commands ++
          ["git add " ++ pyJoin " " (c.files.map (fun f => "\"" ++ f ++ "\"")),
           "git commit -m \"" ++ escapeQuotes (format_commit_message c) ++ "\"",
           ""])
      []

/-- Lines 96-109: the detail block `print_summary` prints for one commit,
one list entry per `print` call. -/
def commitDetail (c : Commit) : List String :=
  ["--- Commit " ++ c.id ++ " ---", "Type: " ++ c.type] ++
  (if optTruthy c.scope then ["Scope: " ++ c.scope.getD ""] else []) ++
  ["Subject: " ++ c.subject,
   "Files (" ++ toString c.files.length ++ "):"] ++
  c.files.map (fun f => "  - " ++ f) ++
  (if c.breaking then ["⚠️  BREAKING CHANGE"] else []) ++
  (if optTruthy c.closes then ["Closes: " ++ c.closes.getD ""] else []) ++
  [""]

/-- The banner line `chr(61) * 60` of line 78. -/
def bannerLine : String := String.mk (List.replicate 60 '=')

/-- Lines 76-109: `print_summary`, modelled as the list of lines printed to
standard output (one entry per `print` call). -/
def print_summary (r : Recommendation) : List String :=
  let header : List String :=
    [bannerLine, "COMMIT RECOMMENDATION SUMMARY", bannerLine,
     "Status: " ++ pyUpper r.status,
     "Security Scan: " ++ pyUpper r.security_scan,
     "Issues Found: " ++ toString r.issues_found,
     "Commits Proposed: " ++ toString r.commits_proposed,
     ""]
  if r.status = "blocked" then
    header ++
      ["⛔ BLOCKED - Cannot proceed with commit",
       "Review the security issues in the agent output above."]
  else if r.commits.isEmpty then
    header ++ ["No commits proposed."]
  else
    header ++ r.commits.flatMap commitDetail

/-- The opening marker of the recommendation block. -/
def tagOpen : List Char := "<COMMIT_RECOMMENDATION>".data

/-- The closing marker of the recommendation block. -/
def tagClose : List Char := "</COMMIT_RECOMMENDATION>".data

/-- Index of the first occurrence of `pat` in `l` (the position at which
the regex engine's literal search first matches), or `none`. -/
def firstOcc (pat : List Char) : List Char → Option Nat
  | [] => if pat.isEmpty then some 0 else none
  | c :: rest =>
    if pat.isPrefixOf (c :: rest) then some 0
    else (firstOcc pat rest).map (fun i => i + 1)

/-- Lines 34-42: the extraction step of `parse_commit_recommendation`.
`re.search` with the non-greedy pattern finds the earliest opening marker
followed by a closing marker and takes the shortest inner span, i.e. the
text up to the first closing marker after that opening marker; the result
is stripped (line 42). -/
def extractBlock (text : List Char) : Option (List Char) :=
  match firstOcc tagOpen text with
  | none => none
  | some i =>
    let rest := text.drop (i + tagOpen.length)
    match firstOcc tagClose rest with
    | none => none
    | some j => some (pyStripList (rest.take j))

/-- Lines 24-43: `parse_commit_recommendation`, with `yaml.safe_load`
abstracted as `decode` (applied to the stripped inner text; `decode`
returns `none` where `safe_load` returns a value that is not a
recommendation record, in particular `None`). -/
def parse_commit_recommendation (decode : List Char → Option Recommendation)
    (text : List Char) : Option Recommendation :=
  match extractBlock text with
  | none => none
  | some content => decode content

/-- Observable outcome of one run of `main` (lines 142-172): the process
exit status and the lines written to the diagnostic stream. -/
structure MainOutcome where
  exitCode : Nat
  stderrLines : List String
deriving Repr, DecidableEq

/-- Lines 152-172: the exit/diagnostic behaviour of `main` on input
`text`.  A parse result of `none` (Python: a falsy `recommendation`)
prints the error line to stderr and exits 1; otherwise the summary (and
possibly the commands) are printed to stdout and the process ends with
status 0. -/
def mainRun (decode : List Char → Option Recommendation)
    (text : List Char) : MainOutcome :=
  match parse_commit_recommendation decode text with
  | none => ⟨1, ["ERROR: No COMMIT_RECOMMENDATION block found in input"]⟩
  | some _ => ⟨0, []⟩

/-! ## String helper lemmas -/

theorem str_append_assoc (a b c : String) : a ++ b ++ c = a ++ (b ++ c) :=
  String.append_assoc a b c

theorem str_append_empty (s : String) : s ++ "" = s :=
  String.append_empty s

theorem nl_nl (s : String) : "\n" ++ ("\n" ++ s) = "\n\n" ++ s := by
  rw [← str_append_assoc]
  exact congrArg (fun t => t ++ s) (by decide)

theorem nl_nl_nl (s : String) : "\n" ++ ("\n\n" ++ s) = "\n\n\n" ++ s := by
  rw [← str_append_assoc]
  exact congrArg (fun t => t ++ s) (by decide)

/-- Closed form of `format_commit_message` by cases on which optional
fields are truthy. -/
theorem format_commit_message_eq (c : Commit) :
    format_commit_message c =
      subjectLine c ++
        (if optTruthy c.body then "\n\n" ++ pyStrip (c.body.getD "") else "") ++
        (if optTruthy c.closes then
          (if optTruthy c.body then "\n\n" else "\n\n\n") ++ c.closes.getD ""
         else "") := by
  unfold format_commit_message
  cases hb : optTruthy c.body <;> cases hc : optTruthy c.closes <;>
    simp [hb, hc, pyJoin, str_append_assoc, str_append_empty, nl_nl, nl_nl_nl]

theorem str_empty_append (s : String) : "" ++ s = s :=
  String.empty_append s

theorem paren_colon (s : String) : ")" ++ (": " ++ s) = "): " ++ s := by
  rw [← str_append_assoc]
  exact congrArg (fun t => t ++ s) (by decide)

/-- C2: the first line of `format_commit_message` is `type(scope): subject`
when the scope is present and non-empty, else `type: subject`; a truthy
body follows after exactly one blank line; a truthy closes footer follows
after exactly one blank line when a body is present, and after two blank
lines when no body is present. -/
theorem format_commit_message_layout (c : Commit) :
    format_commit_message c =
      (if optTruthy c.scope then
        c.type ++ "(" ++ c.scope.getD "" ++ "): " ++ c.subject
       else c.type ++ ": " ++ c.subject) ++
      (if optTruthy c.body then "\n\n" ++ pyStrip (c.body.getD "") else "") ++
      (if optTruthy c.closes then
        (if optTruthy c.body then "\n\n" else "\n\n\n") ++ c.closes.getD ""
       else "") := by
  rw [format_commit_message_eq]
  have hsub : subjectLine c =
      (if optTruthy c.scope then
        c.type ++ "(" ++ c.scope.getD "" ++ "): " ++ c.subject
       else c.type ++ ": " ++ c.subject) := by
    unfold subjectLine scopePart
    cases hs : optTruthy c.scope <;>
      simp [str_append_assoc, str_empty_append, paren_colon]
  rw [hsub]

/-- C3, counterexample: on the commit `fix` / `null check` / closes
`Closes #42` with no body, the result is not the claimed string with a
single blank line before the footer. -/
theorem format_closes_no_body_counterexample :
    format_commit_message
        ⟨"1", "fix", none, "null check", none, [], false, some "Closes #42"⟩ ≠
      "fix: null check\n\nCloses #42" := by decide

/-- C3, amended: with no body, the `closes` footer is preceded by two
blank lines (three newline characters), per the asymmetry rule of §3. -/
theorem format_closes_no_body_amended (id : String) (files : List String) (breaking : Bool) :
    format_commit_message
        ⟨id, "fix", none, "null check", none, files, breaking, some "Closes #42"⟩ =
      "fix: null check\n\n\nCloses #42" := rfl

/-- C9: whenever the body field is truthy, the body text inserted into the
message is `strip(body)`, preceded by exactly one blank line. -/
theorem format_commit_message_body_stripped (c : Commit)
    (h : optTruthy c.body = true) :
    format_commit_message c =
      subjectLine c ++ "\n\n" ++ pyStrip (c.body.getD "") ++
        (if optTruthy c.closes then "\n\n" ++ c.closes.getD "" else "") := by
  rw [format_commit_message_eq, h]
  cases hc : optTruthy c.closes <;>
    simp [str_append_assoc, str_append_empty]

theorem format_commit_message_body_stripped_witness :
    format_commit_message
        ⟨"1", "fix", none, "null check", some "  fixes the crash  ", [], false, none⟩ =
      subjectLine
          ⟨"1", "fix", none, "null check", some "  fixes the crash  ", [], false, none⟩ ++
        "\n\n" ++
        pyStrip ((some "  fixes the crash  ").getD "") ++
        (if optTruthy (none : Option String) then
          "\n\n" ++ (none : Option String).getD "" else "") :=
  format_commit_message_body_stripped
    ⟨"1", "fix", none, "null check", some "  fixes the crash  ", [], false, none⟩
    (by decide)

/-- C1: a recommendation whose status is not the string `safe` yields no
commands at all, whatever its commits contain. -/
theorem generate_git_commands_non_safe (r : Recommendation)
    (h : r.status ≠ "safe") : generate_git_commands r = [] := by
  simp [generate_git_commands, h]

theorem generate_git_commands_non_safe_witness :
    generate_git_commands
        ⟨"blocked", "failed", 2, 1,
         [⟨"1", "feat", none, "add", none, ["secrets.env", "a.py"], false, none⟩]⟩ = [] :=
  generate_git_commands_non_safe _ (by decide)

theorem foldl_append_eq_flatMap (f : Commit → List String) :
    ∀ (l : List Commit) (acc : List String),
      l.foldl (fun cmds c => cmds ++ f c) acc = acc ++ l.flatMap f := by
  intro l
  induction l with
  | nil => intro acc; simp
  | cons c t ih => intro acc; simp [ih]

/-- C8: for a `safe` recommendation the commands are, per commit in order,
a `git add` naming each file path verbatim wrapped in double quotes (no
escaping inside the path), a `git commit -m` whose message alone has its
double quotes escaped, and an empty separator. -/
theorem generate_git_commands_safe_shape (r : Recommendation)
    (h : r.status = "safe") :
    generate_git_commands r =
      r.commits.flatMap (fun c =>
        ["git add " ++ pyJoin " " (c.files.map (fun f => "\"" ++ f ++ "\"")),
         "git commit -m \"" ++ escapeQuotes (format_commit_message c) ++ "\"",
         ""]) := by
  unfold generate_git_commands
  rw [if_neg (fun hn => hn h)]
  rw [foldl_append_eq_flatMap]
  simp

theorem generate_git_commands_safe_shape_witness :
    generate_git_commands
        ⟨"safe", "passed", 0, 1,
         [⟨"1", "feat", none, "add", none, ["a\"b.py"], false, none⟩]⟩ =
      (⟨"safe", "passed", 0, 1,
        [⟨"1", "feat", none, "add", none, ["a\"b.py"], false, none⟩]⟩ :
          Recommendation).commits.flatMap (fun c =>
        ["git add " ++ pyJoin " " (c.files.map (fun f => "\"" ++ f ++ "\"")),
         "git commit -m \"" ++ escapeQuotes (format_commit_message c) ++ "\"",
         ""]) :=
  generate_git_commands_safe_shape _ rfl

/-- C4: a `safe` recommendation with exactly one commit whose files are
`a.py` and `b.py` yields exactly three strings: the staging command with
both files quoted, the commit command with the quote-escaped formatted
message, and the empty separator. -/
theorem generate_git_commands_single_commit (r : Recommendation) (c : Commit)
    (hs : r.status = "safe") (hc : r.commits = [c])
    (hf : c.files = ["a.py", "b.py"]) :
    generate_git_commands r =
      ["git add \"a.py\" \"b.py\"",
       "git commit -m \"" ++ escapeQuotes (format_commit_message c) ++ "\"",
       ""] := by
  unfold generate_git_commands
  rw [if_neg (fun hn => hn hs), hc]
  simp only [List.foldl_cons, List.foldl_nil, List.nil_append, hf]
  simp [pyJoin]

theorem generate_git_commands_single_commit_witness :
    generate_git_commands
        ⟨"safe", "passed", 0, 1,
         [⟨"1", "feat", some "api", "add login", none, ["a.py", "b.py"], false, none⟩]⟩ =
      ["git add \"a.py\" \"b.py\"",
       "git commit -m \"" ++
         escapeQuotes (format_commit_message
           ⟨"1", "feat", some "api", "add login", none, ["a.py", "b.py"], false, none⟩) ++
         "\"",
       ""] :=
  generate_git_commands_single_commit _ _ rfl rfl rfl

/-- C7: the summary of a blocked recommendation depends only on the
status, security scan, issue count and proposed-commit count; two blocked
recommendations that agree on those produce identical output however
their commits differ, so no commit file list is ever enumerated. -/
theorem print_summary_blocked_commit_independent (r1 r2 : Recommendation)
    (h1 : r1.status = "blocked") (h2 : r2.status = "blocked")
    (hsc : r1.security_scan = r2.security_scan)
    (hif : r1.issues_found = r2.issues_found)
    (hcp : r1.commits_proposed = r2.commits_proposed) :
    print_summary r1 = print_summary r2 := by
  simp [print_summary, h1, h2, hsc, hif, hcp]

theorem print_summary_blocked_commit_independent_witness :
    print_summary
        ⟨"blocked", "failed", 2, 1,
         [⟨"1", "feat", none, "add", none, ["secrets.env", "key.pem"], false, none⟩]⟩ =
      print_summary ⟨"blocked", "failed", 2, 1, []⟩ :=
  print_summary_blocked_commit_independent _ _ rfl rfl rfl rfl rfl

/-! ## Lemmas about `firstOcc` and `extractBlock` -/

theorem firstOcc_at_append (pat : List Char) (hne : pat ≠ []) :
    ∀ pre : List Char, ∀ rest : List Char,
      ¬ pat <:+: (pre ++ pat.dropLast) →
      firstOcc pat (pre ++ (pat ++ rest)) = some pre.length := by
  intro pre
  induction pre with
  | nil =>
    intro rest _
    rw [List.nil_append]
    match pat, hne with
    | p :: ps, _ =>
      have hp : (p :: ps).isPrefixOf ((p :: ps) ++ rest) = true := by
        rw [List.isPrefixOf_iff_prefix]
        exact List.prefix_append _ _
      rw [List.cons_append] at hp ⊢
      simp [firstOcc, hp]
  | cons a pre ih =>
    intro rest H
    rw [List.cons_append] at H ⊢
    have hlen : pat.length ≤ (a :: (pre ++ pat.dropLast)).length := by
      have hpos : 0 < pat.length := List.length_pos.mpr hne
      simp [List.length_append, List.length_dropLast]
      omega
    have hbigpre : (a :: (pre ++ pat.dropLast)) <+: (a :: (pre ++ (pat ++ rest))) := by
      refine ⟨pat.getLast hne :: rest, ?_⟩
      have hpat : pat.dropLast ++ (pat.getLast hne :: rest) = pat ++ rest := by
        conv_rhs => rw [← List.dropLast_append_getLast hne]
        simp
      simp [List.append_assoc, hpat]
    have hnp : pat.isPrefixOf (a :: (pre ++ (pat ++ rest))) = false := by
      by_contra hcon
      have hpre : pat <+: (a :: (pre ++ (pat ++ rest))) := by
        rw [← List.isPrefixOf_iff_prefix]
        exact eq_true_of_ne_false hcon
      have : pat <+: (a :: (pre ++ pat.dropLast)) :=
        List.prefix_of_prefix_length_le hpre hbigpre hlen
      exact H this.isInfix
    have Hrec : ¬ pat <:+: (pre ++ pat.dropLast) := fun hi => H (List.infix_cons hi)
    calc firstOcc pat (a :: (pre ++ (pat ++ rest)))
        = (firstOcc pat (pre ++ (pat ++ rest))).map (fun i => i + 1) := by
          simp [firstOcc, hnp]
      _ = some (pre.length + 1) := by rw [ih rest Hrec]; rfl
      _ = some ((a :: pre).length) := by rw [List.length_cons]

theorem firstOcc_prefix_drop (pat : List Char) :
    ∀ (l : List Char) (i : Nat), firstOcc pat l = some i → pat <+: l.drop i := by
  intro l
  induction l with
  | nil =>
    intro i h
    cases hp : pat.isEmpty with
    | true =>
      have : pat = [] := by simpa [List.isEmpty_iff] using hp
      simp [this]
    | false => simp [firstOcc, hp] at h
  | cons c rest ih =>
    intro i h
    cases hp : pat.isPrefixOf (c :: rest) with
    | true =>
      simp [firstOcc, hp] at h
      rw [← h, List.drop_zero, ← List.isPrefixOf_iff_prefix]
      exact hp
    | false =>
      simp [firstOcc, hp] at h
      rcases h with ⟨i2, hi2, hplus⟩
      have hdrop : (c :: rest).drop i = rest.drop i2 := by
        rw [← hplus]
        rfl
      rw [hdrop]
      exact ih i2 hi2

theorem extractBlock_finds (pre inner post : List Char)
    (h1 : ¬ tagOpen <:+: (pre ++ tagOpen.dropLast))
    (h2 : ¬ tagClose <:+: (inner ++ tagClose.dropLast)) :
    extractBlock (pre ++ tagOpen ++ inner ++ tagClose ++ post) =
      some (pyStripList inner) := by
  have hassoc : pre ++ tagOpen ++ inner ++ tagClose ++ post =
      pre ++ (tagOpen ++ (inner ++ (tagClose ++ post))) := by
    simp [List.append_assoc]
  rw [hassoc]
  have hO : firstOcc tagOpen (pre ++ (tagOpen ++ (inner ++ (tagClose ++ post)))) =
      some pre.length :=
    firstOcc_at_append tagOpen (by decide) pre _ h1
  have hdrop : (pre ++ (tagOpen ++ (inner ++ (tagClose ++ post)))).drop
      (pre.length + tagOpen.length) = inner ++ (tagClose ++ post) := by
    have : pre ++ (tagOpen ++ (inner ++ (tagClose ++ post))) =
        (pre ++ tagOpen) ++ (inner ++ (tagClose ++ post)) := by
      simp [List.append_assoc]
    rw [this]
    exact List.drop_left' (by simp)
  have hC : firstOcc tagClose (inner ++ (tagClose ++ post)) = some inner.length :=
    firstOcc_at_append tagClose (by decide) inner post h2
  have htake : (inner ++ (tagClose ++ post)).take inner.length = inner :=
    List.take_left inner (tagClose ++ post)
  simp only [extractBlock, hO, hdrop, hC, htake]

theorem extractBlock_none_of_no_region (text : List Char)
    (h : ¬ ∃ pre mid post : List Char,
        text = pre ++ tagOpen ++ mid ++ tagClose ++ post) :
    extractBlock text = none := by
  cases hO : firstOcc tagOpen text with
  | none => simp [extractBlock, hO]
  | some i =>
    cases hC : firstOcc tagClose (text.drop (i + tagOpen.length)) with
    | none => simp [extractBlock, hO, hC]
    | some j =>
      exfalso
      apply h
      obtain ⟨t1, ht1⟩ := firstOcc_prefix_drop tagOpen text i hO
      have hR : text.drop (i + tagOpen.length) = t1 := by
        have h1 : (text.drop i).drop tagOpen.length = text.drop (i + tagOpen.length) :=
          List.drop_drop tagOpen.length i text
        rw [← h1, ← ht1, List.drop_left]
      obtain ⟨t2, ht2⟩ := firstOcc_prefix_drop tagClose (text.drop (i + tagOpen.length)) j hC
      refine ⟨text.take i, (text.drop (i + tagOpen.length)).take j, t2, ?_⟩
      have hsplit : text = text.take i ++ text.drop i := (List.take_append_drop i text).symm
      have hsplit2 : text.drop (i + tagOpen.length) =
          (text.drop (i + tagOpen.length)).take j ++ (text.drop (i + tagOpen.length)).drop j :=
        (List.take_append_drop j (text.drop (i + tagOpen.length))).symm
      calc text = text.take i ++ text.drop i := hsplit
        _ = text.take i ++ (tagOpen ++ t1) := by rw [ht1]
        _ = text.take i ++ (tagOpen ++ (text.drop (i + tagOpen.length))) := by rw [hR]
        _ = text.take i ++ (tagOpen ++ ((text.drop (i + tagOpen.length)).take j ++
              (text.drop (i + tagOpen.length)).drop j)) := by rw [← hsplit2]
        _ = text.take i ++ (tagOpen ++ ((text.drop (i + tagOpen.length)).take j ++
              (tagClose ++ t2))) := by rw [ht2]
        _ = text.take i ++ tagOpen ++ (text.drop (i + tagOpen.length)).take j ++
              tagClose ++ t2 := by simp [List.append_assoc]

/-- C5: the extraction step returns the trimmed inner text of the first
non-greedily matched marker region, whatever text surrounds the markers,
and returns `none` when no delimited region exists in the input. -/
theorem extractBlock_spec :
    (∀ pre inner post : List Char,
        ¬ tagOpen <:+: (pre ++ tagOpen.dropLast) →
        ¬ tagClose <:+: (inner ++ tagClose.dropLast) →
        extractBlock (pre ++ tagOpen ++ inner ++ tagClose ++ post) =
          some (pyStripList inner)) ∧
    (∀ text : List Char,
        (¬ ∃ pre mid post : List Char,
            text = pre ++ tagOpen ++ mid ++ tagClose ++ post) →
        extractBlock text = none) :=
  ⟨extractBlock_finds, extractBlock_none_of_no_region⟩

theorem extractBlock_spec_witness :
    extractBlock
        ("noise ".data ++ tagOpen ++ "  status: safe  ".data ++ tagClose ++ " more".data) =
      some (pyStripList "  status: safe  ".data) ∧
    extractBlock "no markers here".data = none := by
  constructor
  · exact extractBlock_spec.1 "noise ".data "  status: safe  ".data " more".data
      (by decide) (by decide)
  · apply extractBlock_spec.2
    rintro ⟨pre, mid, post, hEq⟩
    have hinf : tagOpen <:+: "no markers here".data := by
      rw [hEq]
      exact ⟨pre, mid ++ tagClose ++ post, by simp [List.append_assoc]⟩
    exact absurd hinf (by decide)

/-- C6: `main` ends with status 0 whenever the recommendation block parses
to a record, whatever its status field holds, and with status 1 after one
error line on the diagnostic stream when no block is present. -/
theorem mainRun_exit_codes (decode : List Char → Option Recommendation)
    (text : List Char) :
    (∀ r : Recommendation,
        parse_commit_recommendation decode text = some r →
        mainRun decode text = ⟨0, []⟩) ∧
    (extractBlock text = none →
        mainRun decode text =
          ⟨1, ["ERROR: No COMMIT_RECOMMENDATION block found in input"]⟩) := by
  constructor
  · intro r h
    simp [mainRun, h]
  · intro h
    simp [mainRun, parse_commit_recommendation, h]

/-- A concrete stand-in for `yaml.safe_load` used by witnesses: empty
input decodes to nothing (as PyYAML returns `None` there), anything else
to a fixed blocked recommendation. -/
def decodeEx (content : List Char) : Option Recommendation :=
  if content.isEmpty then none else some ⟨"blocked", "failed", 2, 0, []⟩

theorem mainRun_exit_codes_witness :
    mainRun decodeEx
        "x<COMMIT_RECOMMENDATION>status: blocked</COMMIT_RECOMMENDATION>y".data =
      ⟨0, []⟩ ∧
    mainRun decodeEx "plain text".data =
      ⟨1, ["ERROR: No COMMIT_RECOMMENDATION block found in input"]⟩ := by
  constructor
  · exact (mainRun_exit_codes decodeEx _).1 ⟨"blocked", "failed", 2, 0, []⟩ (by decide)
  · exact (mainRun_exit_codes decodeEx _).2 (by decide)

theorem pyStripList_eq_nil (l : List Char) (h : l.all pyIsSpace = true) :
    pyStripList l = [] := by
  have h1 : l.dropWhile pyIsSpace = [] := by
    rw [List.dropWhile_eq_nil_iff]
    exact fun x hx => List.all_eq_true.mp h x hx
  simp [pyStripList, h1]

/-- C10: a present but empty or whitespace-only recommendation block makes
`parse_commit_recommendation` return `none` (PyYAML decodes the stripped
empty text to `None`), so `main` reports the no-block error and exits 1
even though a degenerate block was present. -/
theorem parse_whitespace_block_none (decode : List Char → Option Recommendation)
    (hdec : decode [] = none) (pre inner post : List Char)
    (h1 : ¬ tagOpen <:+: (pre ++ tagOpen.dropLast))
    (h2 : ¬ tagClose <:+: (inner ++ tagClose.dropLast))
    (hws : inner.all pyIsSpace = true) :
    parse_commit_recommendation decode
        (pre ++ tagOpen ++ inner ++ tagClose ++ post) = none ∧
    mainRun decode (pre ++ tagOpen ++ inner ++ tagClose ++ post) =
      ⟨1, ["ERROR: No COMMIT_RECOMMENDATION block found in input"]⟩ := by
  have hx := extractBlock_finds pre inner post h1 h2
  have hp : parse_commit_recommendation decode
      (pre ++ tagOpen ++ inner ++ tagClose ++ post) = none := by
    unfold parse_commit_recommendation
    rw [hx, pyStripList_eq_nil inner hws]
    exact hdec
  refine ⟨hp, ?_⟩
  unfold mainRun
  rw [hp]

theorem parse_whitespace_block_none_witness :
    parse_commit_recommendation decodeEx
        ("a".data ++ tagOpen ++ "  \n ".data ++ tagClose ++ "b".data) = none ∧
    mainRun decodeEx ("a".data ++ tagOpen ++ "  \n ".data ++ tagClose ++ "b".data) =
      ⟨1, ["ERROR: No COMMIT_RECOMMENDATION block found in input"]⟩ :=
  parse_whitespace_block_none decodeEx (by decide) "a".data "  \n ".data "b".data
    (by decide) (by decide) (by decide)
